import Mathlib

/-!
# Verification of the solar sizing kernel

A shallow embedding, over the rationals, of the numeric core of the solar
sizing program: the energy-balance simulation `uptime`, the cost evaluator
`all_in_system_cost`, the sensitivity estimator `cost_and_elasticity`, and
the stochastic optimizer `find_minimum_system_cost`.  Machine floats are
modelled by exact rational arithmetic; the ambient random generator used by
the optimizer is modelled as an explicit stream of draws together with a
position into the stream.
-/

namespace Solar

/-- Length, in hours, of one interval of a solar series of `n` samples:
the source computes `24.0 * 365.0 / len(sol)`. -/
def t_interval (n : ℕ) : ℚ := 24 * 365 / (n : ℚ)

/-- One iteration of the simulation loop in `uptime`: given the current
battery charge `b` and the solar sample `s`, returns the next battery
charge and the utilization recorded for this interval.  Mirrors the
three-way branch of the source:
* more sun than load: full utilization, surplus charges the battery,
  clamped at `capacity`;
* battery covers the remaining load: full utilization, battery discharges
  by exactly the deficit;
* otherwise: partial utilization, battery driven to `0`. -/
def simStep (capacity load tI b s : ℚ) : ℚ × ℚ :=
  if load < s then
    (min (b + tI * (s - load)) capacity, 1)
  else if (load - s) * tI < b then
    (b - (load - s) * tI, 1)
  else
    (0, (s * tI + b) / (load * tI))

/-- The battery state-of-charge trajectory produced by the loop of
`uptime`, starting from charge `b`; one entry per interval plus the
initial state, so its length is one more than the series length. -/
def batteryList (capacity load tI : ℚ) : ℚ → List ℚ → List ℚ
  | b, [] => [b]
  | b, s :: rest =>
      b :: batteryList capacity load tI (simStep capacity load tI b s).1 rest

/-- The utilization trajectory produced by the loop of `uptime`, starting
from battery charge `b`; one entry per interval. -/
def utilizationList (capacity load tI : ℚ) : ℚ → List ℚ → List ℚ
  | _, [] => []
  | b, s :: rest =>
      (simStep capacity load tI b s).2 ::
        utilizationList capacity load tI (simStep capacity load tI b s).1 rest

/-- `uptime(capacity, load, sol)` from the source: simulates the battery
over the series and returns `(capacity, load, battery_uptime_fraction,
load_served_fraction)`.  The third component counts the entries of the
trajectory other than the final one that are strictly positive, divided by
their number; the fourth is the interval length times the sum of the
utilizations, divided by the hours in a year. -/
def uptime (capacity load : ℚ) (sol : List ℚ) : ℚ × ℚ × ℚ × ℚ :=
  (capacity, load,
    (((batteryList capacity load (t_interval sol.length) capacity sol).dropLast.countP
        (fun b => decide (0 < b)) : ℕ) : ℚ) /
      (((batteryList capacity load (t_interval sol.length) capacity sol).length - 1 : ℕ) : ℚ),
    t_interval sol.length *
        (utilizationList capacity load (t_interval sol.length) capacity sol).sum / (24 * 365))

/-- `all_in_system_cost` from the source: converts the size pair to the
simulator's absolute units, runs `uptime`, and uses the capacity and load
values returned by it to form the levelized cost. -/
def all_in_system_cost (solar_cost battery_cost load_cost battery_size array_size : ℚ)
    (sol : List ℚ) : ℚ :=
  ((uptime (battery_size / array_size) (1 / array_size) sol).1 * battery_cost + solar_cost +
      load_cost * (uptime (battery_size / array_size) (1 / array_size) sol).2.1) /
    ((uptime (battery_size / array_size) (1 / array_size) sol).2.1 *
      (uptime (battery_size / array_size) (1 / array_size) sol).2.2.2)

/-- `cost_and_elasticity` from the source: the baseline cost, the two
perturbed costs, and the two relative differences. -/
def cost_and_elasticity (solar_cost battery_cost load_cost battery_size array_size : ℚ)
    (sol : List ℚ) : ℚ × ℚ × ℚ × ℚ × ℚ :=
  (all_in_system_cost solar_cost battery_cost load_cost battery_size array_size sol,
   all_in_system_cost solar_cost battery_cost load_cost
     (101 / 100 * battery_size + 1 / 100) array_size sol,
   all_in_system_cost solar_cost battery_cost load_cost battery_size
     (101 / 100 * array_size + 1 / 100) sol,
   (all_in_system_cost solar_cost battery_cost load_cost battery_size array_size sol -
      all_in_system_cost solar_cost battery_cost load_cost
        (101 / 100 * battery_size + 1 / 100) array_size sol) /
     all_in_system_cost solar_cost battery_cost load_cost battery_size array_size sol,
   (all_in_system_cost solar_cost battery_cost load_cost battery_size array_size sol -
      all_in_system_cost solar_cost battery_cost load_cost battery_size
        (101 / 100 * array_size + 1 / 100) sol) /
     all_in_system_cost solar_cost battery_cost load_cost battery_size array_size sol)

/-- The mutable local state of the optimizer's loop: the current candidate
sizes `bi`, `ai` and the best-seen record `cost_min`, `bi_min`, `ai_min`. -/
structure OptState where
  bi : ℚ
  ai : ℚ
  cost_min : ℚ
  bi_min : ℚ
  ai_min : ℚ
deriving DecidableEq

/-- The initial value `min(10, 10 * load_cost / 5e6)` used by the optimizer
for both `bi` and `ai`. -/
def initial_size (load_cost : ℚ) : ℚ := min 10 (10 * load_cost / 5000000)

/-- The step amplitude chosen by the optimizer from `load_cost`, with the
two empirically tuned band adjustments of the source. -/
def amplitude (load_cost : ℚ) : ℚ :=
  let a1 := 10 + 70 * (load_cost / 5000000)
  let a2 := if 700000 < load_cost ∧ load_cost < 1300000 then a1 * 3 else a1
  if 80000000 < load_cost then a2 * (1 / 2) else a2

/-- The optimizer state before the loop: both sizes at `initial_size`,
best cost at `10^10`, best sizes at the initial sizes. -/
def initState (load_cost : ℚ) : OptState :=
  { bi := initial_size load_cost
    ai := initial_size load_cost
    cost_min := 10 ^ 10
    bi_min := initial_size load_cost
    ai_min := initial_size load_cost }

/-- One iteration of the optimizer's loop, with `u1` and `u2` the two
draws `uniform(0.1, 1)` consumed by this iteration (first for `bi`, then
for `ai`): evaluate cost and elasticities at the current sizes, record a
new best if the cost improves, then move both sizes along the elasticities
and clamp (`bi` at `0`, `ai` at `0.01`). -/
def optStep (solar_cost battery_cost load_cost amp : ℚ) (sol : List ℚ) (u1 u2 : ℚ)
    (s : OptState) : OptState :=
  let r := cost_and_elasticity solar_cost battery_cost load_cost s.bi s.ai sol
  let s1 := if r.1 < s.cost_min then
      { s with ai_min := s.ai, bi_min := s.bi, cost_min := r.1 }
    else s
  { s1 with
    bi := max 0 (s1.bi + amp * u1 * r.2.2.2.1)
    ai := max (1 / 100) (s1.ai + amp * u2 * r.2.2.2.2) }

/-- `n` iterations of the optimizer's loop, drawing from `stream` starting
at position `g`; each iteration consumes the two draws at positions `g`
and `g + 1`, in that order. -/
def optLoop (solar_cost battery_cost load_cost amp : ℚ) (sol : List ℚ) (stream : ℕ → ℚ) :
    ℕ → ℕ → OptState → OptState
  | _, 0, s => s
  | g, n + 1, s =>
      optLoop solar_cost battery_cost load_cost amp sol stream (g + 2) n
        (optStep solar_cost battery_cost load_cost amp sol (stream g) (stream (g + 1)) s)

/-- The optimizer state after the 100 iterations of
`find_minimum_system_cost`, starting the draws at stream position `0`. -/
def finalState (solar_cost battery_cost load_cost : ℚ) (sol : List ℚ)
    (stream : ℕ → ℚ) : OptState :=
  optLoop solar_cost battery_cost load_cost (amplitude load_cost) sol stream 0 100
    (initState load_cost)

/-- `find_minimum_system_cost` from the source: run the loop, re-run
`uptime` once at the best-found sizes, and return the inputs, the best
sizes, the cost breakdown, the totals and the uptime report. -/
def find_minimum_system_cost (solar_cost battery_cost load_cost : ℚ) (sol : List ℚ)
    (stream : ℕ → ℚ) :
    (ℚ × ℚ × ℚ) × (ℚ × ℚ × ℚ) × (ℚ × ℚ × ℚ) × (ℚ × ℚ × ℚ) × (ℚ × ℚ × ℚ × ℚ) :=
  let s := finalState solar_cost battery_cost load_cost sol stream
  let ut := uptime (s.bi_min / s.ai_min) (1 / s.ai_min) sol
  let array_cost := solar_cost * s.ai_min
  let storage_cost := battery_cost * s.bi_min
  let total_cost := array_cost + storage_cost + load_cost
  ((solar_cost, battery_cost, load_cost),
   (s.ai_min, s.bi_min, 1),
   (array_cost, storage_cost, load_cost),
   (array_cost + storage_cost, total_cost, total_cost / ut.2.2.2),
   ut)

/-! ### The same functions with the ambient random generator made explicit

The program draws randomness from the global generator of the `random`
module.  To talk about which functions consume randomness we also give a
state-threaded translation: every function receives the current position
`g` into the stream of draws and returns the new position.  Only the
optimizer's loop ever calls `uniform`, so the bodies of the other
functions pass the position along untouched. -/

/-- The simulation loop of `uptime` with the generator position threaded
through each iteration; the body makes no draws.  Returns the battery and
utilization trajectories together with the final generator position. -/
def uptimeLoopR (capacity load tI : ℚ) : ℚ → List ℚ → ℕ → (List ℚ × List ℚ) × ℕ
  | b, [], g => (([b], []), g)
  | b, s :: rest, g =>
      let step := simStep capacity load tI b s
      let r := uptimeLoopR capacity load tI step.1 rest g
      ((b :: r.1.1, step.2 :: r.1.2), r.2)

/-- `uptime` with the generator position threaded through. -/
def uptimeR (capacity load : ℚ) (sol : List ℚ) (g : ℕ) : (ℚ × ℚ × ℚ × ℚ) × ℕ :=
  let r := uptimeLoopR capacity load (t_interval sol.length) capacity sol g
  ((capacity, load,
    ((r.1.1.dropLast.countP (fun b => decide (0 < b)) : ℕ) : ℚ) /
      ((r.1.1.length - 1 : ℕ) : ℚ),
    t_interval sol.length * r.1.2.sum / (24 * 365)), r.2)

/-- `all_in_system_cost` with the generator position threaded through. -/
def all_in_system_costR (solar_cost battery_cost load_cost battery_size array_size : ℚ)
    (sol : List ℚ) (g : ℕ) : ℚ × ℕ :=
  let r := uptimeR (battery_size / array_size) (1 / array_size) sol g
  ((r.1.1 * battery_cost + solar_cost + load_cost * r.1.2.1) / (r.1.2.1 * r.1.2.2.2), r.2)

/-- `cost_and_elasticity` with the generator position threaded through its
three sequential cost evaluations. -/
def cost_and_elasticityR (solar_cost battery_cost load_cost battery_size array_size : ℚ)
    (sol : List ℚ) (g : ℕ) : (ℚ × ℚ × ℚ × ℚ × ℚ) × ℕ :=
  let c := all_in_system_costR solar_cost battery_cost load_cost battery_size array_size sol g
  let cb := all_in_system_costR solar_cost battery_cost load_cost
    (101 / 100 * battery_size + 1 / 100) array_size sol c.2
  let ca := all_in_system_costR solar_cost battery_cost load_cost battery_size
    (101 / 100 * array_size + 1 / 100) sol cb.2
  ((c.1, cb.1, ca.1, (c.1 - cb.1) / c.1, (c.1 - ca.1) / c.1), ca.2)

example : uptime 0 1 [0, 0] = (0, 1, 0, 0) := by norm_num [uptime, batteryList, utilizationList, simStep, t_interval]
example : uptime 1 1 [1, 1] = (1, 1, 1, 1) := by norm_num [uptime, batteryList, utilizationList, simStep, t_interval]
example : uptime 0 1 [2, 0] = (0, 1, 0, 1 / 2) := by norm_num [uptime, batteryList, utilizationList, simStep, t_interval]

/-! ## Structural lemmas about the simulation loop -/

lemma batteryList_length (capacity load tI : ℚ) :
    ∀ (sol : List ℚ) (b : ℚ), (batteryList capacity load tI b sol).length = sol.length + 1 := by
  intro sol
  induction sol with
  | nil => intro b; simp [batteryList]
  | cons s rest ih => intro b; simp [batteryList, ih]

lemma utilizationList_length (capacity load tI : ℚ) :
    ∀ (sol : List ℚ) (b : ℚ), (utilizationList capacity load tI b sol).length = sol.length := by
  intro sol
  induction sol with
  | nil => intro b; simp [utilizationList]
  | cons s rest ih => intro b; simp [utilizationList, ih]

lemma batteryList_headI (capacity load tI b : ℚ) (sol : List ℚ) :
    (batteryList capacity load tI b sol).headI = b := by
  cases sol <;> rfl

/-- Per-step invariant of the simulation: from a battery charge between
`0` and `capacity` and a non-negative sample, the next charge stays in
`[0, capacity]` and the recorded utilization lies in `[0, 1]`. -/
lemma simStep_bounds (capacity load tI b s : ℚ) (hl : 0 < load) (ht : 0 < tI)
    (hc : 0 ≤ capacity) (hs : 0 ≤ s) (hb0 : 0 ≤ b) (hbc : b ≤ capacity) :
    0 ≤ (simStep capacity load tI b s).1 ∧ (simStep capacity load tI b s).1 ≤ capacity ∧
      0 ≤ (simStep capacity load tI b s).2 ∧ (simStep capacity load tI b s).2 ≤ 1 := by
  unfold simStep
  split_ifs with h1 h2 <;> dsimp only
  · refine ⟨le_min (by nlinarith) hc, min_le_right _ _, by norm_num, le_refl 1⟩
  · push_neg at h1
    refine ⟨by nlinarith, by nlinarith, by norm_num, le_refl 1⟩
  · push_neg at h1 h2
    have hden : 0 < load * tI := mul_pos hl ht
    refine ⟨le_refl 0, hc, div_nonneg (by nlinarith) hden.le, ?_⟩
    rw [div_le_one hden]
    nlinarith

/-- Loop invariant of the simulation: every battery charge in the
trajectory stays in `[0, capacity]` and every utilization in `[0, 1]`. -/
lemma sim_lists_bounds (capacity load tI : ℚ) (hl : 0 < load) (ht : 0 < tI)
    (hc : 0 ≤ capacity) :
    ∀ (sol : List ℚ), (∀ x ∈ sol, 0 ≤ x) → ∀ b, 0 ≤ b → b ≤ capacity →
      (∀ x ∈ batteryList capacity load tI b sol, 0 ≤ x ∧ x ≤ capacity) ∧
        (∀ u ∈ utilizationList capacity load tI b sol, 0 ≤ u ∧ u ≤ 1) := by
  intro sol
  induction sol with
  | nil =>
    intro _ b hb0 hbc
    constructor
    · intro x hx
      simp only [batteryList, List.mem_singleton] at hx
      subst hx
      exact ⟨hb0, hbc⟩
    · intro u hu
      simp [utilizationList] at hu
  | cons s rest ih =>
    intro hnn b hb0 hbc
    have hs : 0 ≤ s := hnn s (List.mem_cons_self s rest)
    have hrest : ∀ x ∈ rest, 0 ≤ x := fun x hx => hnn x (List.mem_cons_of_mem s hx)
    obtain ⟨hb1, hb2, hu1, hu2⟩ := simStep_bounds capacity load tI b s hl ht hc hs hb0 hbc
    obtain ⟨ihB, ihU⟩ := ih hrest (simStep capacity load tI b s).1 hb1 hb2
    constructor
    · intro x hx
      simp only [batteryList, List.mem_cons] at hx
      rcases hx with h | h
      · subst h; exact ⟨hb0, hbc⟩
      · exact ihB x h
    · intro u hu
      simp only [utilizationList, List.mem_cons] at hu
      rcases hu with h | h
      · subst h; exact ⟨hu1, hu2⟩
      · exact ihU u h

/-- The interval length is positive for a non-empty series. -/
lemma t_interval_pos {sol : List ℚ} (hne : sol ≠ []) : 0 < t_interval sol.length := by
  have hn : 0 < sol.length := List.length_pos.mpr hne
  unfold t_interval
  positivity

/-- C1: for every solar series with all entries non-negative, every load
strictly positive and every capacity non-negative, the battery trajectory
computed by `uptime` starts at `capacity` and stays within `[0, capacity]`,
every per-interval utilization lies in `[0, 1]`, and both fractions
returned by `uptime` lie in `[0, 1]`. -/
theorem uptime_invariants (capacity load : ℚ) (sol : List ℚ)
    (hl : 0 < load) (hc : 0 ≤ capacity) (hnn : ∀ x ∈ sol, 0 ≤ x) (hne : sol ≠ []) :
    (batteryList capacity load (t_interval sol.length) capacity sol).headI = capacity ∧
      (∀ x ∈ batteryList capacity load (t_interval sol.length) capacity sol,
        0 ≤ x ∧ x ≤ capacity) ∧
      (∀ u ∈ utilizationList capacity load (t_interval sol.length) capacity sol,
        0 ≤ u ∧ u ≤ 1) ∧
      0 ≤ (uptime capacity load sol).2.2.1 ∧ (uptime capacity load sol).2.2.1 ≤ 1 ∧
      0 ≤ (uptime capacity load sol).2.2.2 ∧ (uptime capacity load sol).2.2.2 ≤ 1 := by
  have ht : 0 < t_interval sol.length := t_interval_pos hne
  have hn : 0 < sol.length := List.length_pos.mpr hne
  obtain ⟨hB, hU⟩ :=
    sim_lists_bounds capacity load (t_interval sol.length) hl ht hc sol hnn capacity
      hc (le_refl capacity)
  refine ⟨batteryList_headI _ _ _ _ _, hB, hU, ?_, ?_, ?_, ?_⟩
  · exact div_nonneg (Nat.cast_nonneg _) (Nat.cast_nonneg _)
  · show ((List.countP _ _ : ℕ) : ℚ) / _ ≤ 1
    rw [batteryList_length capacity load (t_interval sol.length) sol capacity]
    have hcount : (batteryList capacity load (t_interval sol.length) capacity sol).dropLast.countP
        (fun b => decide (0 < b)) ≤ sol.length := by
      calc (batteryList capacity load (t_interval sol.length) capacity sol).dropLast.countP
            (fun b => decide (0 < b))
          ≤ (batteryList capacity load (t_interval sol.length) capacity sol).dropLast.length :=
            List.countP_le_length _
        _ = sol.length := by
            rw [List.length_dropLast, batteryList_length capacity load (t_interval sol.length)]
            simp
    have hnq : (0 : ℚ) < ((sol.length : ℕ) : ℚ) := by exact_mod_cast hn
    rw [div_le_one (by simpa using hnq)]
    have := (Nat.cast_le (α := ℚ)).mpr hcount
    simpa using this
  · show 0 ≤ t_interval sol.length * _ / (24 * 365)
    have hsum : 0 ≤ (utilizationList capacity load (t_interval sol.length) capacity sol).sum :=
      List.sum_nonneg fun u hu => (hU u hu).1
    positivity
  · show t_interval sol.length * _ / (24 * 365) ≤ 1
    have hsum : (utilizationList capacity load (t_interval sol.length) capacity sol).sum ≤
        ((sol.length : ℕ) : ℚ) := by
      have := List.sum_le_card_nsmul
        (utilizationList capacity load (t_interval sol.length) capacity sol) 1
        (fun u hu => (hU u hu).2)
      rw [utilizationList_length] at this
      simpa using this
    have hsum0 : 0 ≤ (utilizationList capacity load (t_interval sol.length) capacity sol).sum :=
      List.sum_nonneg fun u hu => (hU u hu).1
    have hnq : (0 : ℚ) < ((sol.length : ℕ) : ℚ) := by exact_mod_cast hn
    rw [div_le_one (by norm_num)]
    calc t_interval sol.length *
          (utilizationList capacity load (t_interval sol.length) capacity sol).sum
        ≤ t_interval sol.length * ((sol.length : ℕ) : ℚ) := by
          exact mul_le_mul_of_nonneg_left hsum ht.le
      _ = 24 * 365 := by
          unfold t_interval
          field_simp

/-- Witness for C1 at `capacity = 1`, `load = 1`, `sol = [1/2]`. -/
theorem uptime_invariants_witness :
    (0 : ℚ) < 1 ∧ (0 : ℚ) ≤ 1 ∧ (∀ x ∈ [(1 : ℚ) / 2], 0 ≤ x) ∧ [(1 : ℚ) / 2] ≠ [] ∧
      ((batteryList 1 1 (t_interval [(1 : ℚ) / 2].length) 1 [(1 : ℚ) / 2]).headI = 1 ∧
        (∀ x ∈ batteryList 1 1 (t_interval [(1 : ℚ) / 2].length) 1 [(1 : ℚ) / 2],
          0 ≤ x ∧ x ≤ 1) ∧
        (∀ u ∈ utilizationList 1 1 (t_interval [(1 : ℚ) / 2].length) 1 [(1 : ℚ) / 2],
          0 ≤ u ∧ u ≤ 1) ∧
        0 ≤ (uptime 1 1 [(1 : ℚ) / 2]).2.2.1 ∧ (uptime 1 1 [(1 : ℚ) / 2]).2.2.1 ≤ 1 ∧
        0 ≤ (uptime 1 1 [(1 : ℚ) / 2]).2.2.2 ∧ (uptime 1 1 [(1 : ℚ) / 2]).2.2.2 ≤ 1) :=
  ⟨by norm_num, by norm_num, by norm_num, by simp,
    uptime_invariants 1 1 [(1 : ℚ) / 2] (by norm_num) (by norm_num) (by norm_num) (by simp)⟩

/-! ## The cost evaluator and the sensitivity estimator -/

/-- C2: for every non-empty solar series, `battery_size ≥ 0` and
`array_size > 0`, `all_in_system_cost` equals
`(capacity * battery_cost + solar_cost + load_cost * load) /
(load * load_served_fraction)` with `capacity = battery_size / array_size`,
`load = 1 / array_size` and `load_served_fraction` the last component of
`uptime capacity load sol`. -/
theorem all_in_system_cost_formula
    (solar_cost battery_cost load_cost battery_size array_size : ℚ) (sol : List ℚ)
    (hne : sol ≠ []) (hbs : 0 ≤ battery_size) (has : 0 < array_size) :
    all_in_system_cost solar_cost battery_cost load_cost battery_size array_size sol =
      (battery_size / array_size * battery_cost + solar_cost +
          load_cost * (1 / array_size)) /
        (1 / array_size *
          (uptime (battery_size / array_size) (1 / array_size) sol).2.2.2) := rfl

/-- Witness for C2 at `solar_cost = battery_cost = load_cost = 1`,
`battery_size = 0`, `array_size = 1`, `sol = [1]`. -/
theorem all_in_system_cost_formula_witness :
    ([(1 : ℚ)] ≠ []) ∧ (0 : ℚ) ≤ 0 ∧ (0 : ℚ) < 1 ∧
      all_in_system_cost 1 1 1 0 1 [(1 : ℚ)] =
        ((0 : ℚ) / 1 * 1 + 1 + 1 * (1 / 1)) /
          (1 / 1 * (uptime ((0 : ℚ) / 1) ((1 : ℚ) / 1) [(1 : ℚ)]).2.2.2) :=
  ⟨by simp, le_refl 0, by norm_num,
    all_in_system_cost_formula 1 1 1 0 1 [(1 : ℚ)] (by simp) (le_refl 0) (by norm_num)⟩

/-- C5: `cost_and_elasticity` returns the baseline cost obtained by
calling `all_in_system_cost` directly at the unperturbed sizes, the two
costs at the isolated perturbations `1.01 * battery_size + 0.01` and
`1.01 * array_size + 0.01`, and the elasticities
`(base_cost - perturbed_cost) / base_cost`. -/
theorem cost_and_elasticity_formula
    (solar_cost battery_cost load_cost battery_size array_size : ℚ) (sol : List ℚ) :
    (cost_and_elasticity solar_cost battery_cost load_cost battery_size array_size sol).1 =
        all_in_system_cost solar_cost battery_cost load_cost battery_size array_size sol ∧
      (cost_and_elasticity solar_cost battery_cost load_cost battery_size array_size sol).2.1 =
        all_in_system_cost solar_cost battery_cost load_cost
          (101 / 100 * battery_size + 1 / 100) array_size sol ∧
      (cost_and_elasticity solar_cost battery_cost load_cost battery_size
          array_size sol).2.2.1 =
        all_in_system_cost solar_cost battery_cost load_cost battery_size
          (101 / 100 * array_size + 1 / 100) sol ∧
      (cost_and_elasticity solar_cost battery_cost load_cost battery_size
          array_size sol).2.2.2.1 =
        ((cost_and_elasticity solar_cost battery_cost load_cost battery_size
            array_size sol).1 -
          (cost_and_elasticity solar_cost battery_cost load_cost battery_size
            array_size sol).2.1) /
          (cost_and_elasticity solar_cost battery_cost load_cost battery_size
            array_size sol).1 ∧
      (cost_and_elasticity solar_cost battery_cost load_cost battery_size
          array_size sol).2.2.2.2 =
        ((cost_and_elasticity solar_cost battery_cost load_cost battery_size
            array_size sol).1 -
          (cost_and_elasticity solar_cost battery_cost load_cost battery_size
            array_size sol).2.2.1) /
          (cost_and_elasticity solar_cost battery_cost load_cost battery_size
            array_size sol).1 :=
  ⟨rfl, rfl, rfl, rfl, rfl⟩

/-- C4: after its loop, `find_minimum_system_cost` returns as its fifth
component the `uptime` report at the best-found sizes
(`capacity = bi_min / ai_min`, `load = 1 / ai_min`), and the last entry of
its totals tuple is `total_cost` divided by the load-served fraction of
that report, with
`total_cost = solar_cost * ai_min + battery_cost * bi_min + load_cost`. -/
theorem find_minimum_final_report (solar_cost battery_cost load_cost : ℚ) (sol : List ℚ)
    (stream : ℕ → ℚ) :
    (find_minimum_system_cost solar_cost battery_cost load_cost sol stream).2.2.2.2 =
        uptime
          ((find_minimum_system_cost solar_cost battery_cost load_cost sol stream).2.1.2.1 /
            (find_minimum_system_cost solar_cost battery_cost load_cost sol stream).2.1.1)
          (1 / (find_minimum_system_cost solar_cost battery_cost load_cost sol stream).2.1.1)
          sol ∧
      (find_minimum_system_cost solar_cost battery_cost load_cost sol stream).2.2.2.1.2.2 =
        (solar_cost *
            (find_minimum_system_cost solar_cost battery_cost load_cost sol stream).2.1.1 +
          battery_cost *
            (find_minimum_system_cost solar_cost battery_cost load_cost sol stream).2.1.2.1 +
          load_cost) /
          (find_minimum_system_cost solar_cost battery_cost load_cost sol
            stream).2.2.2.2.2.2.2 :=
  ⟨rfl, rfl⟩

/-! ## Degenerate capacity and constant-series behaviour of the simulator -/

/-- With zero capacity and an empty battery the surplus branch clamps the
battery back to `0` and the deficit branch drains it to `0`, so each step
keeps the battery at `0` and records utilization `min (s / load) 1`. -/
lemma simStep_zero_capacity (load tI s : ℚ) (hl : 0 < load) (ht : 0 < tI) :
    simStep 0 load tI 0 s = (0, min (s / load) 1) := by
  unfold simStep
  split_ifs with h1 h2
  · have hmin : min (0 + tI * (s - load)) 0 = 0 :=
      min_eq_right (by nlinarith)
    have hmin1 : min (s / load) 1 = 1 :=
      min_eq_right ((one_le_div hl).mpr h1.le)
    rw [hmin, hmin1]
  · exfalso
    push_neg at h1
    nlinarith
  · push_neg at h1 h2
    have hdiv : (s * tI + 0) / (load * tI) = s / load := by
      rw [add_zero, mul_comm s tI, mul_comm load tI]
      exact mul_div_mul_left s load ht.ne'
    have hmin : min (s / load) 1 = s / load :=
      min_eq_left ((div_le_one hl).mpr h1)
    rw [hdiv, hmin]

/-- With zero capacity the battery never charges, so the whole utilization
trajectory is the pass-through `min (s / load) 1`. -/
lemma utilizationList_zero_capacity (load tI : ℚ) (hl : 0 < load) (ht : 0 < tI) :
    ∀ sol : List ℚ,
      utilizationList 0 load tI 0 sol = sol.map (fun s => min (s / load) 1) := by
  intro sol
  induction sol with
  | nil => simp [utilizationList]
  | cons s rest ih =>
    simp only [utilizationList, List.map_cons, simStep_zero_capacity load tI s hl ht, ih]

/-- C7: with `capacity = 0`, for every solar series with non-negative
entries and every `load > 0`, the per-interval utilization computed by
`uptime` is `min (sol i / load) 1`; consequently, for an all-zero series
the returned load-served fraction is `0`. -/
theorem uptime_zero_capacity (load : ℚ) (sol : List ℚ) (hl : 0 < load) (hne : sol ≠ [])
    (hnn : ∀ x ∈ sol, 0 ≤ x) :
    utilizationList 0 load (t_interval sol.length) 0 sol =
        sol.map (fun s => min (s / load) 1) ∧
      ((∀ x ∈ sol, x = 0) → (uptime 0 load sol).2.2.2 = 0) := by
  have ht := t_interval_pos hne
  refine ⟨utilizationList_zero_capacity load _ hl ht sol, ?_⟩
  intro hz
  show t_interval sol.length *
      (utilizationList 0 load (t_interval sol.length) 0 sol).sum / (24 * 365) = 0
  rw [utilizationList_zero_capacity load _ hl ht sol]
  have hsum : (sol.map (fun s => min (s / load) 1)).sum = 0 := by
    apply List.sum_eq_zero
    intro y hy
    obtain ⟨x, hx, rfl⟩ := List.mem_map.mp hy
    rw [hz x hx]
    norm_num
  rw [hsum]
  ring

/-- Witness for C7 at `load = 1`, `sol = [0]`. -/
theorem uptime_zero_capacity_witness :
    (0 : ℚ) < 1 ∧ ([(0 : ℚ)] ≠ []) ∧ (∀ x ∈ [(0 : ℚ)], 0 ≤ x) ∧
      (utilizationList 0 1 (t_interval [(0 : ℚ)].length) 0 [(0 : ℚ)] =
          [(0 : ℚ)].map (fun s => min (s / 1) 1) ∧
        ((∀ x ∈ [(0 : ℚ)], x = 0) → (uptime 0 1 [(0 : ℚ)]).2.2.2 = 0)) :=
  ⟨by norm_num, by simp, by norm_num,
    uptime_zero_capacity 1 [(0 : ℚ)] (by norm_num) (by simp) (by norm_num)⟩

/-- When the solar sample equals the load exactly, the step leaves the
battery unchanged and records full utilization. -/
lemma simStep_constant (capacity load tI b : ℚ) (hl : 0 < load) (ht : 0 < tI)
    (hb : 0 ≤ b) :
    simStep capacity load tI b load = (b, 1) := by
  unfold simStep
  split_ifs with h1 h2
  · exact absurd h1 (lt_irrefl load)
  · have hsub : b - (load - load) * tI = b := by ring
    rw [hsub]
  · push_neg at h2
    have hb0 : b = 0 := le_antisymm (by nlinarith) hb
    subst hb0
    have hdiv : (load * tI + 0) / (load * tI) = 1 := by
      rw [add_zero]
      exact div_self (by positivity)
    rw [hdiv]

/-- On a series whose every entry equals the load, the battery trajectory
is constant and every utilization is `1`. -/
lemma sim_lists_constant (capacity load tI : ℚ) (hl : 0 < load) (ht : 0 < tI) :
    ∀ (sol : List ℚ), (∀ x ∈ sol, x = load) → ∀ b, 0 ≤ b →
      batteryList capacity load tI b sol = List.replicate (sol.length + 1) b ∧
        utilizationList capacity load tI b sol = List.replicate sol.length 1 := by
  intro sol
  induction sol with
  | nil => intro _ b hb; simp [batteryList, utilizationList, List.replicate]
  | cons s rest ih =>
    intro hconst b hb
    have hs : s = load := hconst s (List.mem_cons_self s rest)
    subst hs
    have hrest : ∀ x ∈ rest, x = s := fun x hx => hconst x (List.mem_cons_of_mem s hx)
    obtain ⟨ihB, ihU⟩ := ih hrest b hb
    rw [show (s :: rest).length = rest.length + 1 from rfl]
    constructor
    · simp only [batteryList, simStep_constant capacity s tI b hl ht hb, ihB,
        List.replicate_succ]
    · simp only [utilizationList, simStep_constant capacity s tI b hl ht hb, ihU,
        List.replicate_succ]

/-- `countP` over a constant list is all-or-nothing. -/
lemma countP_replicate (p : ℚ → Bool) (a : ℚ) :
    ∀ n : ℕ, (List.replicate n a).countP p = if p a then n else 0 := by
  intro n
  induction n with
  | zero => simp
  | succ m ih =>
    rw [List.replicate_succ, List.countP_cons, ih]
    by_cases h : p a <;> simp [h]

/-- C8: for every non-empty constant solar series whose entries equal the
load exactly, `uptime` returns a load-served fraction of `1`; the battery
uptime fraction is `1` when `capacity > 0` and `0` when `capacity = 0`. -/
theorem uptime_constant_series (capacity load : ℚ) (sol : List ℚ)
    (hl : 0 < load) (hc : 0 ≤ capacity) (hne : sol ≠ []) (hconst : ∀ x ∈ sol, x = load) :
    (uptime capacity load sol).2.2.2 = 1 ∧
      (0 < capacity → (uptime capacity load sol).2.2.1 = 1) ∧
      (capacity = 0 → (uptime capacity load sol).2.2.1 = 0) := by
  have ht := t_interval_pos hne
  have hn : 0 < sol.length := List.length_pos.mpr hne
  have hnq : ((sol.length : ℕ) : ℚ) ≠ 0 := by exact_mod_cast hn.ne'
  obtain ⟨hB, hU⟩ :=
    sim_lists_constant capacity load (t_interval sol.length) hl ht sol hconst capacity hc
  have hdrop : (batteryList capacity load (t_interval sol.length) capacity sol).dropLast =
      List.replicate sol.length capacity := by
    rw [hB, List.replicate_succ', List.dropLast_concat]
  have hlen : ((batteryList capacity load (t_interval sol.length) capacity sol).length - 1 : ℕ)
      = sol.length := by
    rw [batteryList_length]
    simp
  refine ⟨?_, ?_, ?_⟩
  · show t_interval sol.length *
        (utilizationList capacity load (t_interval sol.length) capacity sol).sum /
          (24 * 365) = 1
    rw [hU, List.sum_replicate, nsmul_eq_mul, mul_one]
    unfold t_interval
    field_simp
  · intro hcpos
    show (((batteryList capacity load (t_interval sol.length) capacity sol).dropLast.countP
        (fun b => decide (0 < b)) : ℕ) : ℚ) /
          (((batteryList capacity load (t_interval sol.length) capacity sol).length
            - 1 : ℕ) : ℚ) = 1
    rw [hdrop, hlen, countP_replicate, if_pos (by simpa using hcpos)]
    exact div_self hnq
  · intro hczero
    show (((batteryList capacity load (t_interval sol.length) capacity sol).dropLast.countP
        (fun b => decide (0 < b)) : ℕ) : ℚ) /
          (((batteryList capacity load (t_interval sol.length) capacity sol).length
            - 1 : ℕ) : ℚ) = 0
    rw [hdrop, hlen, countP_replicate, if_neg (by simp [hczero])]
    simp

/-- Witness for C8 at `capacity = 1`, `load = 2`, `sol = [2, 2]`. -/
theorem uptime_constant_series_witness :
    (0 : ℚ) < 2 ∧ (0 : ℚ) ≤ 1 ∧ ([(2 : ℚ), 2] ≠ []) ∧ (∀ x ∈ [(2 : ℚ), 2], x = 2) ∧
      ((uptime 1 2 [(2 : ℚ), 2]).2.2.2 = 1 ∧
        ((0 : ℚ) < 1 → (uptime 1 2 [(2 : ℚ), 2]).2.2.1 = 1) ∧
        ((1 : ℚ) = 0 → (uptime 1 2 [(2 : ℚ), 2]).2.2.1 = 0)) :=
  ⟨by norm_num, by norm_num, by simp, by norm_num,
    uptime_constant_series 1 2 [(2 : ℚ), 2] (by norm_num) (by norm_num) (by simp)
      (by norm_num)⟩

/-! ## Monotonicity of the simulator in the battery capacity -/

/-- One simulation step is monotone in the pair (capacity, battery
charge): a larger capacity with at least as much charge yields at least as
much next charge and at least as much utilization. -/
lemma simStep_mono (load tI c1 c2 b1 b2 s : ℚ) (hl : 0 < load) (ht : 0 < tI)
    (hcc : c1 ≤ c2) (hbb : b1 ≤ b2) :
    (simStep c1 load tI b1 s).1 ≤ (simStep c2 load tI b2 s).1 ∧
      (simStep c1 load tI b1 s).2 ≤ (simStep c2 load tI b2 s).2 := by
  unfold simStep
  split_ifs with h1 h2 h3 h4 <;> dsimp only
  · exact ⟨min_le_min (by linarith) hcc, le_refl 1⟩
  · exact ⟨by linarith, le_refl 1⟩
  · exact absurd (lt_of_lt_of_le h2 hbb) h3
  · push_neg at h1 h2
    have hden : 0 < load * tI := mul_pos hl ht
    have hexp : (load - s) * tI = load * tI - s * tI := by ring
    refine ⟨by linarith, ?_⟩
    rw [div_le_one hden]
    linarith
  · push_neg at h1 h2 h4
    have hden : 0 < load * tI := mul_pos hl ht
    exact ⟨le_refl 0, (div_le_div_iff_of_pos_right hden).mpr (by linarith)⟩

/-- The monotonicity of the step propagates pointwise along both
trajectories. -/
lemma sim_lists_mono (load tI c1 c2 : ℚ) (hl : 0 < load) (ht : 0 < tI) (hcc : c1 ≤ c2) :
    ∀ (sol : List ℚ) (b1 b2 : ℚ), b1 ≤ b2 →
      List.Forall₂ (· ≤ ·) (batteryList c1 load tI b1 sol) (batteryList c2 load tI b2 sol) ∧
        List.Forall₂ (· ≤ ·) (utilizationList c1 load tI b1 sol)
          (utilizationList c2 load tI b2 sol) := by
  intro sol
  induction sol with
  | nil =>
    intro b1 b2 hbb
    constructor
    · simpa [batteryList] using hbb
    · simp [utilizationList]
  | cons s rest ih =>
    intro b1 b2 hbb
    obtain ⟨hstep1, hstep2⟩ := simStep_mono load tI c1 c2 b1 b2 s hl ht hcc hbb
    obtain ⟨ihB, ihU⟩ := ih _ _ hstep1
    constructor
    · simp only [batteryList]
      exact List.Forall₂.cons hbb ihB
    · simp only [utilizationList]
      exact List.Forall₂.cons hstep2 ihU

/-- Pointwise domination of lists gives domination of their sums. -/
lemma sum_le_sum_of_forall_le :
    ∀ {l1 l2 : List ℚ}, List.Forall₂ (· ≤ ·) l1 l2 → l1.sum ≤ l2.sum := by
  intro l1 l2 h
  induction h with
  | nil => exact le_refl 0
  | cons hab htail ih =>
    simp only [List.sum_cons]
    exact add_le_add hab ih

/-- C9: for a fixed positive load and a fixed solar series, the simulator
is monotone in the capacity: for `0 ≤ c1 ≤ c2` the battery trajectory for
`c2` dominates the one for `c1` pointwise, every per-interval utilization
for `c2` is at least the one for `c1`, and the load-served fraction is
monotonically non-decreasing. -/
theorem uptime_monotone_in_capacity (load c1 c2 : ℚ) (sol : List ℚ)
    (hl : 0 < load) (hc1 : 0 ≤ c1) (hcc : c1 ≤ c2) (hnn : ∀ x ∈ sol, 0 ≤ x)
    (hne : sol ≠ []) :
    List.Forall₂ (· ≤ ·) (batteryList c1 load (t_interval sol.length) c1 sol)
        (batteryList c2 load (t_interval sol.length) c2 sol) ∧
      List.Forall₂ (· ≤ ·) (utilizationList c1 load (t_interval sol.length) c1 sol)
        (utilizationList c2 load (t_interval sol.length) c2 sol) ∧
      (uptime c1 load sol).2.2.2 ≤ (uptime c2 load sol).2.2.2 := by
  have ht := t_interval_pos hne
  obtain ⟨hB, hU⟩ := sim_lists_mono load (t_interval sol.length) c1 c2 hl ht hcc sol c1 c2 hcc
  refine ⟨hB, hU, ?_⟩
  show t_interval sol.length *
      (utilizationList c1 load (t_interval sol.length) c1 sol).sum / (24 * 365) ≤
    t_interval sol.length *
      (utilizationList c2 load (t_interval sol.length) c2 sol).sum / (24 * 365)
  have hsum := sum_le_sum_of_forall_le hU
  exact (div_le_div_iff_of_pos_right (by norm_num : (0 : ℚ) < 24 * 365)).mpr
    (mul_le_mul_of_nonneg_left hsum ht.le)

/-- Witness for C9 at `load = 1`, `c1 = 0`, `c2 = 1`, `sol = [1/2]`. -/
theorem uptime_monotone_in_capacity_witness :
    (0 : ℚ) < 1 ∧ (0 : ℚ) ≤ 0 ∧ (0 : ℚ) ≤ 1 ∧ (∀ x ∈ [(1 : ℚ) / 2], 0 ≤ x) ∧
      ([(1 : ℚ) / 2] ≠ []) ∧
      (List.Forall₂ (· ≤ ·) (batteryList 0 1 (t_interval [(1 : ℚ) / 2].length) 0 [(1 : ℚ) / 2])
          (batteryList 1 1 (t_interval [(1 : ℚ) / 2].length) 1 [(1 : ℚ) / 2]) ∧
        List.Forall₂ (· ≤ ·)
          (utilizationList 0 1 (t_interval [(1 : ℚ) / 2].length) 0 [(1 : ℚ) / 2])
          (utilizationList 1 1 (t_interval [(1 : ℚ) / 2].length) 1 [(1 : ℚ) / 2]) ∧
        (uptime 0 1 [(1 : ℚ) / 2]).2.2.2 ≤ (uptime 1 1 [(1 : ℚ) / 2]).2.2.2) :=
  ⟨by norm_num, le_refl 0, by norm_num, by norm_num, by simp,
    uptime_monotone_in_capacity 1 0 1 [(1 : ℚ) / 2] (by norm_num) (le_refl 0) (by norm_num)
      (by norm_num) (by simp)⟩

/-! ## The optimizer never returns worse than its initial cost -/

/-- The baseline component of `cost_and_elasticity` is the direct cost at
the same sizes. -/
lemma cost_and_elasticity_fst (solar_cost battery_cost load_cost b a : ℚ) (sol : List ℚ) :
    (cost_and_elasticity solar_cost battery_cost load_cost b a sol).1 =
      all_in_system_cost solar_cost battery_cost load_cost b a sol := rfl

/-- One optimizer step preserves the bound: if the best-recorded sizes
cost at most `c0` and the tracked best cost is at most `c0`, both remain
so after the step. -/
lemma optStep_preserves_bound (solar_cost battery_cost load_cost amp c0 : ℚ)
    (sol : List ℚ) (u1 u2 : ℚ) (s : OptState)
    (h1 : all_in_system_cost solar_cost battery_cost load_cost s.bi_min s.ai_min sol ≤ c0)
    (h2 : s.cost_min ≤ c0) :
    all_in_system_cost solar_cost battery_cost load_cost
        (optStep solar_cost battery_cost load_cost amp sol u1 u2 s).bi_min
        (optStep solar_cost battery_cost load_cost amp sol u1 u2 s).ai_min sol ≤ c0 ∧
      (optStep solar_cost battery_cost load_cost amp sol u1 u2 s).cost_min ≤ c0 := by
  simp only [optStep]
  split_ifs with h
  · rw [cost_and_elasticity_fst] at h
    exact ⟨le_of_lt (lt_of_lt_of_le h h2), le_of_lt (lt_of_lt_of_le h h2)⟩
  · exact ⟨h1, h2⟩

/-- The loop preserves the bound of `optStep_preserves_bound` across any
number of iterations and any generator position. -/
lemma optLoop_preserves_bound (solar_cost battery_cost load_cost amp c0 : ℚ)
    (sol : List ℚ) (stream : ℕ → ℚ) :
    ∀ (n g : ℕ) (s : OptState),
      all_in_system_cost solar_cost battery_cost load_cost s.bi_min s.ai_min sol ≤ c0 →
      s.cost_min ≤ c0 →
      all_in_system_cost solar_cost battery_cost load_cost
          (optLoop solar_cost battery_cost load_cost amp sol stream g n s).bi_min
          (optLoop solar_cost battery_cost load_cost amp sol stream g n s).ai_min sol ≤ c0 ∧
        (optLoop solar_cost battery_cost load_cost amp sol stream g n s).cost_min ≤ c0 := by
  intro n
  induction n with
  | zero => intro g s h1 h2; exact ⟨h1, h2⟩
  | succ m ih =>
    intro g s h1 h2
    obtain ⟨p1, p2⟩ := optStep_preserves_bound solar_cost battery_cost load_cost amp c0 sol
      (stream g) (stream (g + 1)) s h1 h2
    exact ih (g + 2) _ p1 p2

/-- The first iteration starts from the initial state, whose recorded best
sizes are the initial sizes; whether or not the initial cost beats the
`10^10` sentinel, afterwards both tracked quantities are bounded by the
cost at the initial sizes. -/
lemma optStep_initial_bound (solar_cost battery_cost load_cost amp : ℚ)
    (sol : List ℚ) (u1 u2 : ℚ) :
    all_in_system_cost solar_cost battery_cost load_cost
        (optStep solar_cost battery_cost load_cost amp sol u1 u2 (initState load_cost)).bi_min
        (optStep solar_cost battery_cost load_cost amp sol u1 u2 (initState load_cost)).ai_min
        sol ≤
      all_in_system_cost solar_cost battery_cost load_cost (initial_size load_cost)
        (initial_size load_cost) sol ∧
      (optStep solar_cost battery_cost load_cost amp sol u1 u2 (initState load_cost)).cost_min ≤
        all_in_system_cost solar_cost battery_cost load_cost (initial_size load_cost)
          (initial_size load_cost) sol := by
  simp only [optStep, initState]
  split_ifs with h <;> dsimp only
  · exact ⟨le_refl _, le_refl _⟩
  · rw [cost_and_elasticity_fst] at h
    push_neg at h
    exact ⟨le_refl _, h⟩

/-- Both the current and the best-recorded array size stay strictly
positive along the loop. -/
lemma optStep_ai_pos (solar_cost battery_cost load_cost amp : ℚ) (sol : List ℚ)
    (u1 u2 : ℚ) (s : OptState) (h1 : 0 < s.ai) (h2 : 0 < s.ai_min) :
    0 < (optStep solar_cost battery_cost load_cost amp sol u1 u2 s).ai ∧
      0 < (optStep solar_cost battery_cost load_cost amp sol u1 u2 s).ai_min := by
  simp only [optStep]
  split_ifs with h
  · exact ⟨lt_of_lt_of_le (by norm_num) (le_max_left _ _), h1⟩
  · exact ⟨lt_of_lt_of_le (by norm_num) (le_max_left _ _), h2⟩

/-- Positivity of the array sizes is preserved by any number of loop
iterations. -/
lemma optLoop_ai_pos (solar_cost battery_cost load_cost amp : ℚ) (sol : List ℚ)
    (stream : ℕ → ℚ) :
    ∀ (n g : ℕ) (s : OptState), 0 < s.ai → 0 < s.ai_min →
      0 < (optLoop solar_cost battery_cost load_cost amp sol stream g n s).ai ∧
        0 < (optLoop solar_cost battery_cost load_cost amp sol stream g n s).ai_min := by
  intro n
  induction n with
  | zero => intro g s h1 h2; exact ⟨h1, h2⟩
  | succ m ih =>
    intro g s h1 h2
    obtain ⟨p1, p2⟩ := optStep_ai_pos solar_cost battery_cost load_cost amp sol
      (stream g) (stream (g + 1)) s h1 h2
    exact ih (g + 2) _ p1 p2

/-- For a positive `load_cost` the initial size is strictly positive. -/
lemma initial_size_pos (load_cost : ℚ) (hlc : 0 < load_cost) : 0 < initial_size load_cost := by
  unfold initial_size
  exact lt_min (by norm_num) (by positivity)

/-- With a non-zero array size, the total cost divided by the load-served
fraction equals `all_in_system_cost` at the same sizes: multiplying
numerator and denominator of the levelized-cost ratio by `array_size`. -/
lemma all_in_system_cost_total_form (solar_cost battery_cost load_cost b a : ℚ)
    (sol : List ℚ) (ha : a ≠ 0) :
    (solar_cost * a + battery_cost * b + load_cost) / (uptime (b / a) (1 / a) sol).2.2.2 =
      all_in_system_cost solar_cost battery_cost load_cost b a sol := by
  unfold all_in_system_cost
  have hcap : (uptime (b / a) (1 / a) sol).1 = b / a := rfl
  have hload : (uptime (b / a) (1 / a) sol).2.1 = 1 / a := rfl
  rw [hcap, hload]
  generalize (uptime (b / a) (1 / a) sol).2.2.2 = U
  rcases eq_or_ne U 0 with hU | hU
  · rw [hU]
    simp
  · field_simp
    ring

/-- C3: for every cost triple with `load_cost > 0`, every solar series and
every stream of draws, the best cost returned by
`find_minimum_system_cost` (the last entry of its totals tuple) is at most
the cost evaluated at its own initial, pre-loop sizes. -/
theorem find_minimum_le_initial_cost (solar_cost battery_cost load_cost : ℚ)
    (sol : List ℚ) (stream : ℕ → ℚ) (hlc : 0 < load_cost) :
    (find_minimum_system_cost solar_cost battery_cost load_cost sol stream).2.2.2.1.2.2 ≤
      all_in_system_cost solar_cost battery_cost load_cost (initial_size load_cost)
        (initial_size load_cost) sol := by
  have hinit := initial_size_pos load_cost hlc
  have hai : 0 < (finalState solar_cost battery_cost load_cost sol stream).ai_min := by
    unfold finalState
    rw [show (100 : ℕ) = 99 + 1 from rfl, optLoop]
    refine (optLoop_ai_pos solar_cost battery_cost load_cost (amplitude load_cost) sol stream
      99 2 _ ?_ ?_).2
    · exact (optStep_ai_pos solar_cost battery_cost load_cost (amplitude load_cost) sol
        (stream 0) (stream 1) (initState load_cost) hinit hinit).1
    · exact (optStep_ai_pos solar_cost battery_cost load_cost (amplitude load_cost) sol
        (stream 0) (stream 1) (initState load_cost) hinit hinit).2
  have hbound : all_in_system_cost solar_cost battery_cost load_cost
      (finalState solar_cost battery_cost load_cost sol stream).bi_min
      (finalState solar_cost battery_cost load_cost sol stream).ai_min sol ≤
      all_in_system_cost solar_cost battery_cost load_cost (initial_size load_cost)
        (initial_size load_cost) sol := by
    unfold finalState
    rw [show (100 : ℕ) = 99 + 1 from rfl, optLoop]
    obtain ⟨p1, p2⟩ := optStep_initial_bound solar_cost battery_cost load_cost
      (amplitude load_cost) sol (stream 0) (stream 1)
    exact (optLoop_preserves_bound solar_cost battery_cost load_cost (amplitude load_cost) _
      sol stream 99 2 _ p1 p2).1
  calc (find_minimum_system_cost solar_cost battery_cost load_cost sol stream).2.2.2.1.2.2
      = all_in_system_cost solar_cost battery_cost load_cost
          (finalState solar_cost battery_cost load_cost sol stream).bi_min
          (finalState solar_cost battery_cost load_cost sol stream).ai_min sol :=
        all_in_system_cost_total_form solar_cost battery_cost load_cost _ _ sol hai.ne'
    _ ≤ all_in_system_cost solar_cost battery_cost load_cost (initial_size load_cost)
          (initial_size load_cost) sol := hbound

/-- Witness for C3 at unit costs, `sol = [1]` and the constant stream
`1/2`. -/
theorem find_minimum_le_initial_cost_witness :
    (0 : ℚ) < 1 ∧
      (find_minimum_system_cost 1 1 1 [(1 : ℚ)] (fun _ => 1 / 2)).2.2.2.1.2.2 ≤
        all_in_system_cost 1 1 1 (initial_size 1) (initial_size 1) [(1 : ℚ)] :=
  ⟨by norm_num, find_minimum_le_initial_cost 1 1 1 [(1 : ℚ)] (fun _ => 1 / 2) (by norm_num)⟩

/-! ## Iteration count and clamping of the optimizer loop -/

/-- The loop reads only the draws at positions `g, …, g + 2n - 1`: two
streams that agree there produce the same state. -/
lemma optLoop_congr (solar_cost battery_cost load_cost amp : ℚ) (sol : List ℚ)
    (s1 s2 : ℕ → ℚ) :
    ∀ (n g : ℕ) (s : OptState), (∀ k, g ≤ k → k < g + 2 * n → s1 k = s2 k) →
      optLoop solar_cost battery_cost load_cost amp sol s1 g n s =
        optLoop solar_cost battery_cost load_cost amp sol s2 g n s := by
  intro n
  induction n with
  | zero => intro g s _; rfl
  | succ m ih =>
    intro g s hag
    simp only [optLoop]
    rw [hag g (le_refl g) (by omega), hag (g + 1) (by omega) (by omega)]
    exact ih (g + 2) _ fun k hk1 hk2 => hag k (by omega) (by omega)

/-- Each iteration's update clamps the candidate sizes: `bi` at `0` and
`ai` at `1/100`, whatever the draws and the elasticities are. -/
lemma optStep_clamped (solar_cost battery_cost load_cost amp : ℚ) (sol : List ℚ)
    (u1 u2 : ℚ) (s : OptState) :
    0 ≤ (optStep solar_cost battery_cost load_cost amp sol u1 u2 s).bi ∧
      1 / 100 ≤ (optStep solar_cost battery_cost load_cost amp sol u1 u2 s).ai := by
  simp only [optStep]
  exact ⟨le_max_left 0 _, le_max_left _ _⟩

/-- After at least one iteration the current sizes satisfy the clamps. -/
lemma optLoop_clamped (solar_cost battery_cost load_cost amp : ℚ) (sol : List ℚ)
    (stream : ℕ → ℚ) :
    ∀ (n g : ℕ) (s : OptState), 1 ≤ n →
      0 ≤ (optLoop solar_cost battery_cost load_cost amp sol stream g n s).bi ∧
        1 / 100 ≤ (optLoop solar_cost battery_cost load_cost amp sol stream g n s).ai := by
  intro n
  induction n with
  | zero => intro g s h; exact absurd h (by norm_num)
  | succ m ih =>
    intro g s _
    rcases Nat.eq_zero_or_pos m with hm | hm
    · subst hm
      simp only [optLoop]
      exact optStep_clamped solar_cost battery_cost load_cost amp sol
        (stream g) (stream (g + 1)) s
    · simp only [optLoop]
      exact ih (g + 2) _ hm

/-- C6: the optimizer's loop runs exactly 100 iterations — its output
depends on the random stream only through the 200 draws at positions
`0, …, 199` — and after every per-iteration update the candidate sizes
satisfy `bi ≥ 0` and `ai ≥ 1/100`, for every iteration `1 ≤ k ≤ 100`. -/
theorem optimizer_loop_bounds (solar_cost battery_cost load_cost : ℚ) (sol : List ℚ)
    (s1 s2 : ℕ → ℚ) (hagree : ∀ k < 200, s1 k = s2 k) :
    find_minimum_system_cost solar_cost battery_cost load_cost sol s1 =
        find_minimum_system_cost solar_cost battery_cost load_cost sol s2 ∧
      ∀ k, 1 ≤ k → k ≤ 100 →
        0 ≤ (optLoop solar_cost battery_cost load_cost (amplitude load_cost) sol s1 0 k
            (initState load_cost)).bi ∧
          1 / 100 ≤ (optLoop solar_cost battery_cost load_cost (amplitude load_cost) sol s1 0 k
            (initState load_cost)).ai := by
  constructor
  · have hfs : finalState solar_cost battery_cost load_cost sol s1 =
        finalState solar_cost battery_cost load_cost sol s2 := by
      unfold finalState
      exact optLoop_congr solar_cost battery_cost load_cost (amplitude load_cost) sol s1 s2
        100 0 (initState load_cost) fun k hk1 hk2 => hagree k (by omega)
    unfold find_minimum_system_cost
    rw [hfs]
  · intro k hk1 hk2
    exact optLoop_clamped solar_cost battery_cost load_cost (amplitude load_cost) sol s1
      k 0 (initState load_cost) hk1

/-- Witness for C6 at unit costs, `sol = [1]` and the constant stream
`1/2` on both sides. -/
theorem optimizer_loop_bounds_witness :
    (∀ k < 200, (fun _ : ℕ => (1 : ℚ) / 2) k = (fun _ : ℕ => (1 : ℚ) / 2) k) ∧
      (find_minimum_system_cost 1 1 1 [(1 : ℚ)] (fun _ => 1 / 2) =
          find_minimum_system_cost 1 1 1 [(1 : ℚ)] (fun _ => 1 / 2) ∧
        ∀ k, 1 ≤ k → k ≤ 100 →
          0 ≤ (optLoop 1 1 1 (amplitude 1) [(1 : ℚ)] (fun _ => 1 / 2) 0 k (initState 1)).bi ∧
            1 / 100 ≤
              (optLoop 1 1 1 (amplitude 1) [(1 : ℚ)] (fun _ => 1 / 2) 0 k (initState 1)).ai) :=
  ⟨fun k _ => rfl,
    optimizer_loop_bounds 1 1 1 [(1 : ℚ)] (fun _ => 1 / 2) (fun _ => 1 / 2) fun k _ => rfl⟩

/-! ## Purity: the non-optimizer functions never touch the generator -/

/-- The threaded simulation loop computes exactly the two pure
trajectories and leaves the generator position unchanged. -/
lemma uptimeLoopR_eq (capacity load tI : ℚ) :
    ∀ (sol : List ℚ) (b : ℚ) (g : ℕ),
      uptimeLoopR capacity load tI b sol g =
        ((batteryList capacity load tI b sol, utilizationList capacity load tI b sol), g) := by
  intro sol
  induction sol with
  | nil => intro b g; rfl
  | cons s rest ih =>
    intro b g
    simp only [uptimeLoopR, batteryList, utilizationList, ih]

/-- The threaded `uptime` computes the pure `uptime` and leaves the
generator position unchanged. -/
lemma uptimeR_eq (capacity load : ℚ) (sol : List ℚ) (g : ℕ) :
    uptimeR capacity load sol g = (uptime capacity load sol, g) := by
  simp only [uptimeR, uptimeLoopR_eq, uptime]

/-- The threaded cost evaluator computes the pure one and leaves the
generator position unchanged. -/
lemma all_in_system_costR_eq (solar_cost battery_cost load_cost battery_size array_size : ℚ)
    (sol : List ℚ) (g : ℕ) :
    all_in_system_costR solar_cost battery_cost load_cost battery_size array_size sol g =
      (all_in_system_cost solar_cost battery_cost load_cost battery_size array_size sol, g) := by
  simp only [all_in_system_costR, uptimeR_eq, all_in_system_cost]

/-- The threaded sensitivity estimator computes the pure one and leaves
the generator position unchanged. -/
lemma cost_and_elasticityR_eq (solar_cost battery_cost load_cost battery_size array_size : ℚ)
    (sol : List ℚ) (g : ℕ) :
    cost_and_elasticityR solar_cost battery_cost load_cost battery_size array_size sol g =
      (cost_and_elasticity solar_cost battery_cost load_cost battery_size array_size sol, g) := by
  simp only [cost_and_elasticityR, all_in_system_costR_eq, cost_and_elasticity]

/-- C10: `uptime`, `all_in_system_cost` and `cost_and_elasticity` are
deterministic pure functions — under the generator-threaded semantics
their results are independent of the generator state (so two calls with
identical arguments return identical results), they equal the pure
functions of their arguments, and they return the generator untouched;
randomness in the program is confined to the optimizer's draws. -/
theorem pure_functions_do_not_draw (capacity load : ℚ)
    (solar_cost battery_cost load_cost battery_size array_size : ℚ)
    (sol : List ℚ) (g h : ℕ) :
    (uptimeR capacity load sol g).1 = (uptimeR capacity load sol h).1 ∧
      (uptimeR capacity load sol g).1 = uptime capacity load sol ∧
      (uptimeR capacity load sol g).2 = g ∧
      (all_in_system_costR solar_cost battery_cost load_cost battery_size array_size
          sol g).1 =
        all_in_system_cost solar_cost battery_cost load_cost battery_size array_size sol ∧
      (all_in_system_costR solar_cost battery_cost load_cost battery_size array_size
          sol g).2 = g ∧
      (cost_and_elasticityR solar_cost battery_cost load_cost battery_size array_size
          sol g).1 =
        cost_and_elasticity solar_cost battery_cost load_cost battery_size array_size sol ∧
      (cost_and_elasticityR solar_cost battery_cost load_cost battery_size array_size
          sol g).2 = g := by
  refine ⟨?_, ?_, ?_, ?_, ?_, ?_, ?_⟩ <;>
    simp [uptimeR_eq, all_in_system_costR_eq, cost_and_elasticityR_eq]

end Solar
